import Mathlib

/-!
Verification development for the `pm-utilities` repository, file
`src/jira_issues_workedOn.py`.  The Python program reconstructs, for each
issue, the timeline of assignee ownership from the issue's change history
and intersects it with a user-supplied date window.

The embedding below models the program's time values ("instants") as `Int`
values counting microseconds since `0001-01-01T00:00:00` UTC (the
resolution and origin of Python's `datetime`): `datetime.min` is `0`,
`datetime.max` is the last microsecond of year 9999, and
`timedelta(microseconds=1)` is `1`; negative values can arise transiently
from timezone arithmetic.
Strings are modelled with Lean's `String`; Python's `str.lower` and
`str.strip` are modelled by `pyLower` and `pyStrip` below (exact for the
ASCII data the program handles).  Fallible code (uncaught exceptions) is
modelled with `Option`/`Except`.
-/

namespace JiraWorkedOn

/-- Gregorian leap-year test, as used by Python's `datetime` module. -/
def isLeap (y : Nat) : Bool :=
  y % 4 == 0 && (y % 100 != 0 || y % 400 == 0)

/-- Number of days in month `m` of year `y` (months are 1-based). -/
def daysInMonth (y m : Nat) : Nat :=
  if m == 2 then (if isLeap y then 29 else 28)
  else if m == 4 || m == 6 || m == 9 || m == 11 then 30
  else 31

/-- Days in year `y` strictly before month `m` (1-based). -/
def daysBeforeMonth (y m : Nat) : Nat :=
  let base :=
    match m with
    | 1 => 0 | 2 => 31 | 3 => 59 | 4 => 90 | 5 => 120 | 6 => 151
    | 7 => 181 | 8 => 212 | 9 => 243 | 10 => 273 | 11 => 304 | _ => 334
  if 3 ≤ m && isLeap y then base + 1 else base

/-- Days before January 1 of year `y`, counting from 0001-01-01 (day 0),
the proleptic-Gregorian ordinal used by Python `datetime.toordinal`. -/
def daysBeforeYear (y : Nat) : Nat :=
  365 * (y - 1) + (y - 1) / 4 - (y - 1) / 100 + (y - 1) / 400

/-- Microseconds since 0001-01-01T00:00:00 of the civil datetime
`y-m-d h:mi:s.us` (all fields already validated by the parsers). -/
def civilUSec (y m d h mi s us : Nat) : Int :=
  (((daysBeforeYear y + daysBeforeMonth y m + (d - 1)) * 86400000000
    + h * 3600000000 + mi * 60000000 + s * 1000000 + us : Nat) : Int)

/-- The beginning-of-time sentinel: `datetime.min.replace(tzinfo=utc)`. -/
def DTMIN : Int := civilUSec 1 1 1 0 0 0 0

/-- The end-of-time sentinel: `datetime.max.replace(tzinfo=utc)`,
i.e. 9999-12-31T23:59:59.999999. -/
def DTMAX : Int := civilUSec 9999 12 31 23 59 59 999999

/-- Consume up to `maxN` leading decimal digits of `cs`, returning the value
read, the number of digits consumed, and the rest of the input.  Models the
greedy numeric fields of `datetime.strptime`. -/
def grabDigits : Nat → Nat → Nat → List Char → Nat × Nat × List Char
  | 0, acc, cnt, cs => (acc, cnt, cs)
  | _ + 1, acc, cnt, [] => (acc, cnt, [])
  | n + 1, acc, cnt, c :: cs =>
    if c.isDigit then grabDigits n (acc * 10 + (c.toNat - 48)) (cnt + 1) cs
    else (acc, cnt, c :: cs)

/-- Consume one expected literal character, as `strptime` does for the
literal separators of a format string. -/
def expectChar (c : Char) : List Char → Option (List Char)
  | [] => none
  | x :: xs => if x == c then some xs else none

/-- Parse the numeric-offset or `Z` suffix accepted by `strptime`'s `%z`
directive (the program's data uses offsets like `+0000`), returning the
offset in microseconds paired with the rest of the input. -/
def parseOffset : List Char → Option (Int × List Char)
  | ['Z'] => some (0, [])
  | c :: cs =>
    if c == '+' || c == '-' then
      let (v, cnt, rest) := grabDigits 4 0 0 cs
      if cnt == 4 && v % 100 ≤ 59 then
        let usec : Int := ((v / 100) * 3600000000 + (v % 100) * 60000000 : Nat)
        some (if c == '-' then -usec else usec, rest)
      else none
    else none
  | [] => none

/-- Embedding of `parse_api_dt` (line 43): parse a Jira changelog timestamp
with `strptime` format `%Y-%m-%dT%H:%M:%S.%f%z` and convert it to UTC.
Returns `none` where the Python code raises `ValueError`. -/
def parse_api_dt (s : String) : Option Int := do
  let cs := s.data
  let (y, yc, cs) := grabDigits 4 0 0 cs
  if yc == 0 || y == 0 || 9999 < y then none else
  let cs ← expectChar '-' cs
  let (mo, mc, cs) := grabDigits 2 0 0 cs
  if mc == 0 || mo == 0 || 12 < mo then none else
  let cs ← expectChar '-' cs
  let (d, dc, cs) := grabDigits 2 0 0 cs
  if dc == 0 || d == 0 || daysInMonth y mo < d then none else
  let cs ← expectChar 'T' cs
  let (h, hc, cs) := grabDigits 2 0 0 cs
  if hc == 0 || 23 < h then none else
  let cs ← expectChar ':' cs
  let (mi, mic, cs) := grabDigits 2 0 0 cs
  if mic == 0 || 59 < mi then none else
  let cs ← expectChar ':' cs
  let (sec, sc, cs) := grabDigits 2 0 0 cs
  if sc == 0 || 59 < sec then none else
  let cs ← expectChar '.' cs
  let (f, fc, cs) := grabDigits 6 0 0 cs
  if fc == 0 then none else
  let us := f * 10 ^ (6 - fc)
  let (off, rest) ← parseOffset cs
  if rest.isEmpty then
    some (civilUSec y mo d h mi sec us - off)
  else none

/-- Embedding of `parse_date_ymd_utc` (lines 47-51): parse a strict
`YYYY-MM-DD` string as midnight UTC; with `end_of_day` set, return
23:59:59.999000 of that day.  Returns `none` where Python raises. -/
def parse_date_ymd_utc (s : String) (end_of_day : Bool) : Option Int := do
  let cs := s.data
  let (y, yc, cs) := grabDigits 4 0 0 cs
  if yc == 0 || y == 0 || 9999 < y then none else
  let cs ← expectChar '-' cs
  let (mo, mc, cs) := grabDigits 2 0 0 cs
  if mc == 0 || mo == 0 || 12 < mo then none else
  let cs ← expectChar '-' cs
  let (d, dc, cs) := grabDigits 2 0 0 cs
  if dc == 0 || d == 0 || daysInMonth y mo < d then none else
  if cs.isEmpty then
    if end_of_day then some (civilUSec y mo d 23 59 59 999000)
    else some (civilUSec y mo d 0 0 0 0)
  else none

/-- Embedding of `overlaps` (lines 53-54): closed-interval overlap test. -/
def overlaps (a_start a_end b_start b_end : Int) : Bool :=
  decide (a_start ≤ b_end) && decide (b_start ≤ a_end)

/-- The issue's `assignee` field object: `accountId` / `displayName` keys,
each possibly absent. -/
structure Assignee where
  accountId : Option String
  displayName : Option String
deriving DecidableEq

/-- The slice of an issue's `fields` map that `compute_assignee_window_info`
reads: the `assignee` field (possibly null). -/
structure IssueFields where
  assignee : Option Assignee
deriving DecidableEq

/-- One normalized assignee change entry as built by `get_assignee_changes`
(lines 140-146): the dict with keys `created_dt`, `from_id`, `from_name`,
`to_id`, `to_name`. -/
structure Change where
  created_dt : Int
  from_id : Option String
  from_name : Option String
  to_id : Option String
  to_name : Option String
deriving DecidableEq

/-- One ownership interval as built in `compute_assignee_window_info`
(lines 172-208): the dict with keys `start`, `end`, `id`, `name`. -/
structure Interval where
  start : Int
  «end» : Int
  id : Option String
  name : Option String
deriving DecidableEq

/-- One windowed holder as built in `compute_assignee_window_info`
(lines 217-222): keys `id`, `name`, `overlap_start`, `overlap_end`. -/
structure Holder where
  id : Option String
  name : Option String
  overlap_start : Int
  overlap_end : Int
deriving DecidableEq

/-- Embedding of the interval-construction part of
`compute_assignee_window_info` (lines 172-208): the `intervals` list.  For
a non-empty change list it is one interval before the first change, one
per consecutive change pair, and one after the last change; for an empty
change list it is a single all-time interval held by the issue's current
assignee (`(issue_fields.get("assignee") or {}).get(...)`). -/
def buildIntervals (issue_fields : IssueFields) (assignee_changes : List Change) :
    List Interval :=
  match assignee_changes with
  | [] =>
    [{ start := DTMIN, «end» := DTMAX,
       id := issue_fields.assignee.bind (·.accountId),
       name := issue_fields.assignee.bind (·.displayName) }]
  | first :: rest =>
    { start := DTMIN, «end» := first.created_dt - 1,
      id := first.from_id, name := first.from_name }
    :: (((first :: rest).zip rest).map fun p =>
          { start := p.1.created_dt, «end» := p.2.created_dt - 1,
            id := p.1.to_id, name := p.1.to_name })
    ++ [{ start := ((first :: rest).getLast (List.cons_ne_nil first rest)).created_dt,
          «end» := DTMAX,
          id := ((first :: rest).getLast (List.cons_ne_nil first rest)).to_id,
          name := ((first :: rest).getLast (List.cons_ne_nil first rest)).to_name }]

/-- Embedding of the holder-emission loop of `compute_assignee_window_info`
(lines 210-222): each interval that overlaps the window yields a windowed
holder with the clamped overlap range. -/
def windowHolders (intervals : List Interval) (window_start window_end : Int) :
    List Holder :=
  intervals.filterMap fun iv =>
    if overlaps iv.start iv.«end» window_start window_end then
      some { id := iv.id, name := iv.name,
             overlap_start := max iv.start window_start,
             overlap_end := min iv.«end» window_end }
    else none

/-- The comparison used by `sorted(holders, key=lambda h: (h["overlap_start"],
h["overlap_end"]))`: lexicographic order on the overlap pair. -/
def holderLe (a b : Holder) : Bool :=
  decide (a.overlap_start < b.overlap_start) ||
    (decide (a.overlap_start = b.overlap_start) && decide (a.overlap_end ≤ b.overlap_end))

/-- Insert `x` into the `le`-sorted list after every element `y` with
`le y x`, so that elements comparing equal keep their original order. -/
def insertLe {α : Type} (le : α → α → Bool) (x : α) : List α → List α
  | [] => [x]
  | y :: ys => if le y x then y :: insertLe le x ys else x :: y :: ys

/-- Stable sort by a total comparison, modelling Python's stable `sorted` /
`list.sort`: each element is inserted into the sorted prefix after all
elements that compare `le` to it. -/
def pySorted {α : Type} (le : α → α → Bool) (l : List α) : List α :=
  l.foldl (fun acc x => insertLe le x acc) []

/-- First-occurrence de-duplication with an explicit `seen` accumulator, as
in the `seen`-set loops of lines 225-232 and 262-265. -/
def uniqueBy {α β : Type} [DecidableEq β] (key : α → β) :
    List α → List β → List α
  | [], _ => []
  | x :: t, seen =>
    if key x ∈ seen then uniqueBy key t seen
    else x :: uniqueBy key t (key x :: seen)

/-- Python string truthiness on an optional string: `None` and `""` are
falsy (used by the `if h["name"]` / `if h["id"]` comprehension filters). -/
def truthyStr (o : Option String) : Option String :=
  o.bind fun s => if s = "" then none else some s

/-- The value of `x or y` for an optional string `x` and string `y`
(Python returns `y` when `x` is `None` or empty). -/
def pyOr (o : Option String) (dflt : String) : String :=
  match o with
  | some s => if s = "" then dflt else s
  | none => dflt

/-- Lower-case one character, as Python `str.lower` does on the ASCII data
the program handles. -/
def charLower (c : Char) : Char :=
  if 'A' ≤ c ∧ c ≤ 'Z' then Char.ofNat (c.toNat + 32) else c

/-- Model of Python `str.lower` (exact on ASCII). -/
def pyLower (s : String) : String := ⟨s.data.map charLower⟩

/-- The whitespace set stripped by Python `str.strip`. -/
def isPySpace (c : Char) : Bool :=
  c == ' ' || c == '\t' || c == '\n' || c == '\r' || c == '\x0b' || c == '\x0c'

/-- Model of Python `str.strip`: drop leading and trailing whitespace. -/
def pyStrip (s : String) : String :=
  ⟨((s.data.dropWhile isPySpace).reverse.dropWhile isPySpace).reverse⟩

/-- The result dict of `compute_assignee_window_info` (lines 240-246).
The `first`/`last` fields are `Option String` because Python stores
`unique[0]["name"]`, which may be `None`, and `""` when `unique` is empty. -/
structure WindowInfo where
  assignees_during_window_display : String
  assignees_during_window_accountIds : String
  first_assignee_in_window : Option String
  last_assignee_in_window : Option String
  holders : List Holder
deriving DecidableEq

/-- Embedding of `compute_assignee_window_info` (lines 161-246): build the
interval timeline, intersect with the window, sort holders by overlap
range, de-duplicate by `(id, name)`, and assemble the result dict. -/
def compute_assignee_window_info (issue_fields : IssueFields)
    (assignee_changes : List Change) (window_start window_end : Int) :
    WindowInfo :=
  let intervals := buildIntervals issue_fields assignee_changes
  let holders := windowHolders intervals window_start window_end
  let holders_sorted := pySorted holderLe holders
  let unique := uniqueBy (fun h => (h.id, h.name)) holders_sorted []
  { assignees_during_window_display :=
      ", ".intercalate (unique.filterMap fun h => truthyStr h.name),
    assignees_during_window_accountIds :=
      ", ".intercalate (unique.filterMap fun h => truthyStr h.id),
    first_assignee_in_window :=
      match unique with
      | [] => some ""
      | h :: _ => h.name,
    last_assignee_in_window :=
      match unique.getLast? with
      | none => some ""
      | some h => h.name,
    holders := unique }

/-- The `out` list built by the loop of `match_holders_to_user_filter`
(lines 251-260), given the already-normalized filter list `users_norm`. -/
def matchOut (holders : List Holder) (users_norm : List String)
    (use_accountid : Bool) : List String :=
  holders.filterMap fun h =>
    match use_accountid with
    | true =>
      if h.id ≠ none ∧ h.id.getD "" ≠ "" ∧ pyLower (h.id.getD "") ∈ users_norm then
        some (pyOr h.name (h.id.getD ""))
      else none
    | false =>
      let nm := pyLower (h.name.getD "")
      if nm ≠ "" ∧ nm ∈ users_norm then some (h.name.getD "") else none

/-- Embedding of `match_holders_to_user_filter` (lines 248-266): an empty
filter yields `""`; otherwise filter entries are stripped and lower-cased,
matching holders are collected in order, de-duplicated, and joined. -/
def match_holders_to_user_filter (holders : List Holder) (users : List String)
    (use_accountid : Bool) : String :=
  if users.isEmpty then ""
  else
    let users_norm := users.map fun u => pyLower (pyStrip u)
    ", ".intercalate (uniqueBy (fun s => s) (matchOut holders users_norm use_accountid) [])

/-- One entry of a raw history record's `items` list: the keys `field`,
`from`, `fromString`, `to`, `toString` (the latter four renamed `fromVal`,
`fromStr`, `toVal`, `toStr` since `from` is reserved in Lean). -/
structure HistItem where
  field : String
  fromVal : Option String
  fromStr : Option String
  toVal : Option String
  toStr : Option String
deriving DecidableEq

/-- One raw changelog history record: a `created` timestamp string
(possibly absent) and its change items. -/
structure History where
  created : Option String
  items : List HistItem
deriving DecidableEq

/-- One changelog page response as consumed by the fetch loop of
`get_assignee_changes`: either a non-200 response, or a page body carrying
its history records, the optional `total` count and the `isLast` flag
(already defaulted to `true` where the key is absent, matching
`data.get("isLast", True)`). -/
inductive Page where
  | err (status : Nat) (body : String)
  | ok (histories : List History) (total : Option Nat) (isLast : Bool)
deriving DecidableEq

/-- Embedding of the per-history body of `get_assignee_changes`
(lines 133-146): a record whose `created` value is falsy — the key absent
or the value the empty string, Python's `if not created: continue` — is
skipped; a present non-empty but unparseable timestamp raises (the
`ValueError` from `strptime` is not caught); otherwise each `assignee`
item becomes a change entry. -/
def historyChanges (h : History) : Except String (List Change) :=
  match h.created with
  | none => .ok []
  | some s =>
    if s = "" then .ok []
    else
      match parse_api_dt s with
      | none => .error ("InvalidTimestampFormat: " ++ s)
      | some t =>
        .ok ((h.items.filter fun it => it.field == "assignee").map fun it =>
          { created_dt := t, from_id := it.fromVal, from_name := it.fromStr,
            to_id := it.toVal, to_name := it.toStr })

/-- Embedding of the `while True` paging loop of `get_assignee_changes`
(lines 123-156) over a finite trace of page responses: a non-200 response
breaks out keeping the changes collected so far; otherwise the page's
histories are processed and the `total`/`isLast` bookkeeping decides
whether to continue.  An exhausted trace ends the loop. -/
def collectPages : List Page → Nat → List Change → Except String (List Change)
  | [], _, acc => .ok acc
  | Page.err _ _ :: _, _, acc => .ok acc
  | Page.ok histories total isLast :: rest, start_at, acc => do
    let pageChanges ← histories.mapM historyChanges
    let acc := acc ++ pageChanges.flatten
    match total with
    | none =>
      if isLast then .ok acc
      else collectPages rest (start_at + 100) acc
    | some t =>
      if start_at + 100 ≥ t then .ok acc
      else collectPages rest (start_at + 100) acc

/-- Embedding of `get_assignee_changes` (lines 111-159): run the paging
loop from `start_at = 0` and finally sort the collected changes by
`created_dt` (`list.sort` is stable; so is `pySorted`). -/
def get_assignee_changes (pages : List Page) : Except String (List Change) :=
  (collectPages pages 0 []).map fun cs =>
    pySorted (fun a b => decide (a.created_dt ≤ b.created_dt)) cs

/-- One issue as consumed by the main loop: its key, the fetched fields,
and the trace of changelog page responses its history fetch returns. -/
structure Issue where
  key : String
  fields : IssueFields
  pages : List Page
deriving DecidableEq

/-- The slice of an output row that the window computation determines
(lines 320-336): the issue key, the window info, and the matched names. -/
structure Row where
  key : String
  win : WindowInfo
  matched : String
deriving DecidableEq

/-- Embedding of the date-window construction and per-issue loop of `main`
(lines 302-337): parse the two dates (a `strptime` failure aborts the run;
no ordering check is performed on the parsed window), then for each issue
fetch its changes and compute the window info and matched names.  An
uncaught per-issue exception (`.error`) aborts the whole run. -/
def runRows (date_from date_to : String) (users : List String)
    (use_accountid : Bool) (issues : List Issue) : Except String (List Row) :=
  match parse_date_ymd_utc date_from false with
  | none => .error "InvalidDateFormat"
  | some window_start =>
    match parse_date_ymd_utc date_to true with
    | none => .error "InvalidDateFormat"
    | some window_end =>
      issues.mapM fun it => do
        let changes ← get_assignee_changes it.pages
        let win := compute_assignee_window_info it.fields changes window_start window_end
        let matched :=
          if users.isEmpty then ""
          else match_holders_to_user_filter win.holders users use_accountid
        pure { key := it.key, win := win, matched := matched }

/-! Concrete inputs used by individual claim theorems, witnesses and
counterexamples. -/

/-- The single change event of the spec's concrete scenario:
2025-07-02T10:00Z, Alice → Bob. -/
def ev6 : Change :=
  { created_dt := civilUSec 2025 7 2 10 0 0 0,
    from_id := some "alice-id", from_name := some "Alice",
    to_id := some "bob-id", to_name := some "Bob" }

/-- Issue fields with no current assignee (the fallback is irrelevant for a
non-empty change sequence). -/
def f6 : IssueFields := { assignee := none }

/-- Issue fields whose current assignee is Carol. -/
def c4fields : IssueFields :=
  { assignee := some { accountId := some "carol-id", displayName := some "Carol" } }

/-- An issue with no change history at all (its changelog trace is empty). -/
def c4issue : Issue := { key := "ISS-1", fields := c4fields, pages := [] }

/-- A changelog history record with a well-formed timestamp and one
assignee item. -/
def okHist : History :=
  { created := some "2025-07-02T10:00:00.000+0000",
    items := [{ field := "assignee", fromVal := some "alice-id",
                fromStr := some "Alice", toVal := some "bob-id",
                toStr := some "Bob" }] }

/-- The change entry that `okHist` normalizes to. -/
def okChange : Change :=
  { created_dt := civilUSec 2025 7 2 10 0 0 0,
    from_id := some "alice-id", from_name := some "Alice",
    to_id := some "bob-id", to_name := some "Bob" }

/-- A single changelog page holding one well-formed record and one record
whose `created` string is present but malformed. -/
def c5pages : List Page :=
  [Page.ok [okHist, { created := some "not-a-timestamp", items := [] }] none true]

/-- A two-page changelog trace: the first page succeeds (with `total` large
enough that the loop continues), the second returns a non-200 response. -/
def c9pages : List Page :=
  [Page.ok [okHist] (some 150) true, Page.err 500 "boom"]

/-! Claim theorems. -/

/-- C3: for an empty change-event sequence the reconstructor produces
exactly one interval spanning all time, held by the fallback identity read
from the issue's `assignee` field; both identity parts are absent when the
issue is unassigned. -/
theorem timeline_empty_is_fallback_alltime (f : IssueFields) :
    buildIntervals f [] =
      [{ start := DTMIN, «end» := DTMAX,
         id := f.assignee.bind (·.accountId),
         name := f.assignee.bind (·.displayName) }] ∧
    (f.assignee = none →
      buildIntervals f [] = [{ start := DTMIN, «end» := DTMAX, id := none, name := none }]) := by
  refine ⟨rfl, fun h => ?_⟩
  simp [buildIntervals, h]

/-- C7: a windowed holder is emitted for an interval iff the interval
overlaps the window, and it carries exactly the clamped overlap range
`max(start, window_start)` / `min(end, window_end)`. -/
theorem windowHolders_mem_iff (intervals : List Interval)
    (window_start window_end : Int) (h : Holder) :
    h ∈ windowHolders intervals window_start window_end ↔
      ∃ iv ∈ intervals,
        overlaps iv.start iv.«end» window_start window_end = true ∧
        h = { id := iv.id, name := iv.name,
              overlap_start := max iv.start window_start,
              overlap_end := min iv.«end» window_end } := by
  simp only [windowHolders, List.mem_filterMap]
  constructor
  · rintro ⟨iv, hiv, hsome⟩
    by_cases hov : overlaps iv.start iv.«end» window_start window_end = true
    · rw [if_pos hov] at hsome
      exact ⟨iv, hiv, hov, (Option.some.injEq _ _ ▸ hsome).symm⟩
    · rw [if_neg hov] at hsome
      exact absurd hsome (Option.noConfusion)
  · rintro ⟨iv, hiv, hov, rfl⟩
    exact ⟨iv, hiv, by rw [if_pos hov]⟩

/-- C10 (as claimed): in display-name mode a holder whose display name is
absent or empty contributes nothing to the matcher's output, whatever the
filter list holds — in particular its id is never used as a fallback. -/
theorem empty_name_never_matches (users : List String) (t : List Holder)
    (h : Holder) (hname : h.name = none ∨ h.name = some "") :
    match_holders_to_user_filter (h :: t) users false =
      match_holders_to_user_filter t users false := by
  have hlower : pyLower "" = "" := rfl
  have key : ∀ un : List String, matchOut (h :: t) un false = matchOut t un false := by
    intro un
    rcases hname with hn | hn <;>
      simp [matchOut, List.filterMap_cons, hn, hlower]
  simp only [match_holders_to_user_filter, key]

/-- C10 witness: a holder with an absent name and an id equal to the filter
entry is dropped in display-name mode. -/
theorem empty_name_never_matches_witness :
    match_holders_to_user_filter
        [{ id := some "u1", name := none, overlap_start := 0, overlap_end := 0 }]
        ["u1"] false =
      match_holders_to_user_filter [] ["u1"] false :=
  empty_name_never_matches ["u1"] []
    { id := some "u1", name := none, overlap_start := 0, overlap_end := 0 }
    (Or.inl rfl)

/-- C8 counterexample: the holder name " Alice" trim-and-case-folds to the
normalized filter entry of "Alice", yet the matcher returns no match — the
holder side is never trimmed, refuting the claim that both sides are
normalized by trimming and case-folding. -/
theorem holder_side_not_trimmed_cex :
    (pyLower (pyStrip " Alice") ∈ ["Alice"].map (fun u => pyLower (pyStrip u))) ∧
    match_holders_to_user_filter
        [{ id := some "u1", name := some " Alice", overlap_start := 0, overlap_end := 0 }]
        ["Alice"] false = "" := by
  constructor
  · decide
  · decide

/-- C8 amended: filter entries are trimmed and case-folded, while the
holder's selected identity field is only case-folded; a holder matches iff
its case-folded field (non-empty, untrimmed) equals some trimmed and
case-folded filter entry. -/
theorem match_normalization_asymmetric (holders : List Holder)
    (users : List String) (x : String) :
    (x ∈ matchOut holders (users.map fun u => pyLower (pyStrip u)) false ↔
      ∃ h ∈ holders, h.name = some x ∧ pyLower x ≠ "" ∧
        ∃ u ∈ users, pyLower x = pyLower (pyStrip u)) ∧
    (x ∈ matchOut holders (users.map fun u => pyLower (pyStrip u)) true ↔
      ∃ h ∈ holders, ∃ i, h.id = some i ∧ i ≠ "" ∧
        (∃ u ∈ users, pyLower i = pyLower (pyStrip u)) ∧ x = pyOr h.name i) := by
  constructor
  · simp only [matchOut, List.mem_filterMap]
    constructor
    · rintro ⟨h, hh, hsome⟩
      by_cases hc : (pyLower (h.name.getD "") ≠ "" ∧
          pyLower (h.name.getD "") ∈ users.map fun u => pyLower (pyStrip u))
      · rw [if_pos hc] at hsome
        obtain ⟨hne, hmem⟩ := hc
        obtain ⟨u, hu, hueq⟩ := List.mem_map.mp hmem
        cases hge : h.name with
        | none =>
          rw [hge] at hne
          exact absurd rfl hne
        | some s =>
          rw [hge] at hsome hne hueq
          simp only [Option.getD_some] at hsome hne hueq
          cases hsome
          exact ⟨h, hh, hge, hne, u, hu, hueq.symm⟩
      · rw [if_neg hc] at hsome
        exact absurd hsome Option.noConfusion
    · rintro ⟨h, hh, hge, hne, u, hu, hueq⟩
      refine ⟨h, hh, ?_⟩
      rw [hge]
      simp only [Option.getD_some]
      rw [if_pos ⟨hne, List.mem_map.mpr ⟨u, hu, hueq.symm⟩⟩]
  · simp only [matchOut, List.mem_filterMap]
    constructor
    · rintro ⟨h, hh, hsome⟩
      by_cases hc : (h.id ≠ none ∧ h.id.getD "" ≠ "" ∧
          pyLower (h.id.getD "") ∈ users.map fun u => pyLower (pyStrip u))
      · rw [if_pos hc] at hsome
        obtain ⟨hsomeid, hne, hmem⟩ := hc
        obtain ⟨u, hu, hueq⟩ := List.mem_map.mp hmem
        cases hid : h.id with
        | none => exact absurd hid hsomeid
        | some i =>
          rw [hid] at hsome hne hueq
          simp only [Option.getD_some] at hsome hne hueq
          cases hsome
          exact ⟨h, hh, i, hid, hne, ⟨u, hu, hueq.symm⟩, rfl⟩
      · rw [if_neg hc] at hsome
        exact absurd hsome Option.noConfusion
    · rintro ⟨h, hh, i, hid, hne, ⟨u, hu, hueq⟩, rfl⟩
      refine ⟨h, hh, ?_⟩
      rw [hid]
      simp only [Option.getD_some]
      rw [if_pos ⟨fun hcon => Option.noConfusion hcon, hne,
                  List.mem_map.mpr ⟨u, hu, hueq.symm⟩⟩]

/-- C6 counterexample: in the concrete scenario the first interval ends at
2025-07-02T09:59:59.999999Z (the event time minus one microsecond, the
minimal unit of the code's `datetime` values), which is a different instant
from the claimed 2025-07-02T09:59:59.999Z. -/
theorem scenario_first_interval_end_cex :
    (buildIntervals f6 [ev6]).head?.map Interval.«end» =
      some (civilUSec 2025 7 2 9 59 59 999999) ∧
    civilUSec 2025 7 2 9 59 59 999999 ≠ civilUSec 2025 7 2 9 59 59 999000 := by
  constructor
  · decide
  · decide

/-- C6 amended: with window 2025-07-01..2025-07-03 and the single event
2025-07-02T10:00Z Alice→Bob, the timeline is [-inf, 09:59:59.999999Z]
Alice and [10:00Z, +inf] Bob, and the windowed holders in order are
[Alice, Bob] with first Alice and last Bob. -/
theorem scenario_timeline_holders :
    parse_date_ymd_utc "2025-07-01" false = some (civilUSec 2025 7 1 0 0 0 0) ∧
    parse_date_ymd_utc "2025-07-03" true = some (civilUSec 2025 7 3 23 59 59 999000) ∧
    buildIntervals f6 [ev6] =
      [{ start := DTMIN, «end» := civilUSec 2025 7 2 9 59 59 999999,
         id := some "alice-id", name := some "Alice" },
       { start := civilUSec 2025 7 2 10 0 0 0, «end» := DTMAX,
         id := some "bob-id", name := some "Bob" }] ∧
    (compute_assignee_window_info f6 [ev6] (civilUSec 2025 7 1 0 0 0 0)
        (civilUSec 2025 7 3 23 59 59 999000)).holders.map Holder.name =
      [some "Alice", some "Bob"] ∧
    (compute_assignee_window_info f6 [ev6] (civilUSec 2025 7 1 0 0 0 0)
        (civilUSec 2025 7 3 23 59 59 999000)).first_assignee_in_window = some "Alice" ∧
    (compute_assignee_window_info f6 [ev6] (civilUSec 2025 7 1 0 0 0 0)
        (civilUSec 2025 7 3 23 59 59 999000)).last_assignee_in_window = some "Bob" := by
  refine ⟨by decide, by decide, by decide, by decide, by decide, by decide⟩

/-- C4 counterexample: with `--from 2025-07-03 --to 2025-07-01` the parsed
window end precedes the window start, yet the run is not rejected: the
per-entity loop runs and produces a full output row. -/
theorem inverted_window_not_rejected_cex :
    civilUSec 2025 7 1 23 59 59 999000 < civilUSec 2025 7 3 0 0 0 0 ∧
    runRows "2025-07-03" "2025-07-01" [] false [c4issue] =
      .ok [{ key := "ISS-1",
             win := { assignees_during_window_display := "Carol",
                      assignees_during_window_accountIds := "carol-id",
                      first_assignee_in_window := some "Carol",
                      last_assignee_in_window := some "Carol",
                      holders := [{ id := some "carol-id", name := some "Carol",
                                    overlap_start := civilUSec 2025 7 3 0 0 0 0,
                                    overlap_end := civilUSec 2025 7 1 23 59 59 999000 }] },
             matched := "" }] := by
  exact ⟨by decide, rfl⟩

/-- C4 amended: the program performs no window-ordering validation — for
any two well-formed dates whose parsed end precedes the parsed start, the
per-entity loop still runs and produces a row for each issue. -/
theorem inverted_window_processes_entities (date_from date_to : String)
    (ws we : Int) (key : String) (f : IssueFields)
    (h1 : parse_date_ymd_utc date_from false = some ws)
    (h2 : parse_date_ymd_utc date_to true = some we)
    (h3 : we < ws) :
    runRows date_from date_to [] false [{ key := key, fields := f, pages := [] }] =
      .ok [{ key := key, win := compute_assignee_window_info f [] ws we,
             matched := "" }] := by
  simp only [runRows, h1, h2]
  rfl

/-- C4 witness: the amended theorem applies to the inverted window
2025-07-03..2025-07-01 (both dates parse; the parsed end precedes the
parsed start). -/
theorem inverted_window_processes_entities_witness :
    runRows "2025-07-03" "2025-07-01" [] false
        [{ key := "ISS-1", fields := c4fields, pages := [] }] =
      .ok [{ key := "ISS-1",
             win := compute_assignee_window_info c4fields []
               (civilUSec 2025 7 3 0 0 0 0) (civilUSec 2025 7 1 23 59 59 999000),
             matched := "" }] :=
  inverted_window_processes_entities "2025-07-03" "2025-07-01"
    (civilUSec 2025 7 3 0 0 0 0) (civilUSec 2025 7 1 23 59 59 999000)
    "ISS-1" c4fields (by decide) (by decide) (by decide)

/-- C5 counterexample: one history record with a present but malformed
timestamp makes the whole changelog fetch — and with it the whole run —
fail, instead of that single event being skipped: the well-formed record
on the same page is lost too. -/
theorem malformed_timestamp_aborts_run_cex :
    get_assignee_changes c5pages =
      .error "InvalidTimestampFormat: not-a-timestamp" ∧
    runRows "2025-07-01" "2025-07-03" [] false
        [{ key := "ISS-2", fields := { assignee := none }, pages := c5pages }] =
      .error "InvalidTimestampFormat: not-a-timestamp" := by
  exact ⟨rfl, rfl⟩

/-- C5 amended: a history record whose timestamp is falsy — absent or the
empty string — is skipped and processing continues; but a record whose
timestamp is present, non-empty and malformed makes the changelog
processing fail (the parse error is not caught), aborting the run. -/
theorem missing_skipped_malformed_fatal (s : String)
    (hne : s ≠ "") (hbad : parse_api_dt s = none) :
    (∀ (created? : Option String), created? = none ∨ created? = some "" →
       ∀ (items : List HistItem) (hs : List History) (total : Option Nat)
         (isLast : Bool) (rest : List Page) (start_at : Nat) (acc : List Change),
       collectPages (Page.ok ({ created := created?, items := items } :: hs) total isLast :: rest)
           start_at acc =
         collectPages (Page.ok hs total isLast :: rest) start_at acc) ∧
    (∀ (items : List HistItem) (hs : List History) (total : Option Nat)
       (isLast : Bool) (rest : List Page) (start_at : Nat) (acc : List Change),
       collectPages (Page.ok ({ created := some s, items := items } :: hs) total isLast :: rest)
           start_at acc =
         .error ("InvalidTimestampFormat: " ++ s)) := by
  constructor
  · intro created? hcre items hs total isLast rest start_at acc
    have hskip : historyChanges { created := created?, items := items } = .ok [] := by
      rcases hcre with h | h <;> subst h <;> rfl
    simp only [collectPages, List.mapM_cons, hskip]
    cases hm : hs.mapM historyChanges with
    | error e => rfl
    | ok l => rfl
  · intro items hs total isLast rest start_at acc
    have herr : historyChanges { created := some s, items := items } =
        .error ("InvalidTimestampFormat: " ++ s) := by
      simp [historyChanges, hne, hbad]
    simp only [collectPages, List.mapM_cons, herr]
    rfl

/-- C5 witness: "not-a-timestamp" is a present, non-empty and malformed
timestamp; on a page holding it, processing fails with the parse error. -/
theorem missing_skipped_malformed_fatal_witness :
    collectPages
        (Page.ok ([{ created := some "not-a-timestamp", items := [] }] : List History)
          none true :: []) 0 [] =
      .error ("InvalidTimestampFormat: " ++ "not-a-timestamp") :=
  (missing_skipped_malformed_fatal "not-a-timestamp" (by decide) (by decide)).2
    [] [] none true [] 0 []

/-- C9 counterexample: when the first changelog page succeeds and the
second returns a non-200 response, the program proceeds with the events of
the first page — not with an empty event list. -/
theorem later_page_failure_keeps_events_cex :
    get_assignee_changes c9pages = .ok [okChange] ∧
    [okChange] ≠ ([] : List Change) := by
  exact ⟨rfl, by decide⟩

/-- C9 amended: a non-200 changelog page breaks the fetch loop, keeping
whatever was collected from earlier pages (so an error on the very first
page yields the empty event list, to which the reconstructor's
empty-sequence path applies), and the result is a normal value — the run
is not aborted. -/
theorem page_failure_breaks_with_collected (status : Nat) (body : String)
    (rest : List Page) :
    (∀ (start_at : Nat) (acc : List Change),
       collectPages (Page.err status body :: rest) start_at acc = .ok acc) ∧
    get_assignee_changes (Page.err status body :: rest) = .ok [] := by
  exact ⟨fun _ _ => rfl, rfl⟩

/-! Structural lemmas about `buildIntervals` on a non-empty change list,
shared by the timeline claims. -/

/-- The timeline of `n` changes has `n + 1` intervals. -/
theorem bi_length (f : IssueFields) (c : Change) (rest : List Change) :
    (buildIntervals f (c :: rest)).length = rest.length + 2 := by
  simp only [buildIntervals, List.cons_append, List.length_cons, List.length_append,
    List.length_map, List.length_zip, List.length_nil]
  omega

/-- The first interval of a non-empty timeline, explicitly. -/
theorem bi_get_zero (f : IssueFields) (c : Change) (rest : List Change) :
    (buildIntervals f (c :: rest))[0]? =
      some { start := DTMIN, «end» := c.created_dt - 1,
             id := c.from_id, name := c.from_name } := by
  simp only [buildIntervals, List.cons_append, List.getElem?_cons_zero]

/-- The middle interval at position `i + 1` spans from change `i` to change
`i + 1` minus one microsecond and carries change `i`'s `to` identity. -/
theorem bi_get_middle (f : IssueFields) (c : Change) (rest : List Change)
    (i : Nat) (ci ci1 : Change)
    (h1 : (c :: rest)[i]? = some ci) (h2 : (c :: rest)[i+1]? = some ci1) :
    (buildIntervals f (c :: rest))[i+1]? =
      some { start := ci.created_dt, «end» := ci1.created_dt - 1,
             id := ci.to_id, name := ci.to_name } := by
  have hi1 : i + 1 < rest.length + 1 := by
    have h := (List.getElem?_eq_some.mp h2).1
    simpa using h
  have hrest : rest[i]? = some ci1 := by
    rw [List.getElem?_cons_succ] at h2; exact h2
  have hz : ((c :: rest).zip rest)[i]? = some (ci, ci1) :=
    List.getElem?_zip_eq_some.mpr ⟨h1, hrest⟩
  simp only [buildIntervals, List.cons_append, List.getElem?_cons_succ]
  rw [List.getElem?_append,
    if_pos (by simp only [List.length_map, List.length_zip, List.length_cons]; omega),
    List.getElem?_map, hz]
  rfl

/-- The start of interval `k + 1` is the time of change `k`. -/
theorem bi_start_succ (f : IssueFields) (c : Change) (rest : List Change)
    (k : Nat) (hk : k ≤ rest.length) :
    ((buildIntervals f (c :: rest))[k+1]?).map Interval.start =
      ((c :: rest)[k]?).map Change.created_dt := by
  rcases Nat.lt_or_ge k rest.length with h | h
  · obtain ⟨rk, hrk⟩ : ∃ x, rest[k]? = some x :=
      ⟨_, List.getElem?_eq_getElem h⟩
    obtain ⟨ck, hck⟩ : ∃ x, (c :: rest)[k]? = some x :=
      ⟨_, List.getElem?_eq_getElem (show k < (c :: rest).length by simp only [List.length_cons]; omega)⟩
    have hz : ((c :: rest).zip rest)[k]? = some (ck, rk) :=
      List.getElem?_zip_eq_some.mpr ⟨hck, hrk⟩
    simp only [buildIntervals, List.cons_append, List.getElem?_cons_succ]
    rw [List.getElem?_append,
      if_pos (by simp only [List.length_map, List.length_zip, List.length_cons]; omega),
      List.getElem?_map, hz, hck]
    rfl
  · obtain rfl : k = rest.length := Nat.le_antisymm hk h
    simp only [buildIntervals, List.cons_append, List.getElem?_cons_succ]
    rw [List.getElem?_append,
      if_neg (by simp only [List.length_map, List.length_zip, List.length_cons]; omega)]
    rw [List.getElem?_eq_getElem (show rest.length < (c :: rest).length by simp)]
    have hidx : rest.length -
        (List.map
          (fun p => ({ start := p.1.created_dt, «end» := p.2.created_dt - 1,
                       id := p.1.to_id, name := p.1.to_name } : Interval))
          ((c :: rest).zip rest)).length = 0 := by
      simp only [List.length_map, List.length_zip, List.length_cons]; omega
    rw [hidx, List.getElem?_cons_zero]
    simp only [Option.map_some']
    rw [List.getLast_eq_getElem]
    simp

/-- The end of interval `k`, for `k` up to the change count minus one, is
the time of change `k` minus one microsecond. -/
theorem bi_end_le (f : IssueFields) (c : Change) (rest : List Change)
    (k : Nat) (hk : k ≤ rest.length) :
    ((buildIntervals f (c :: rest))[k]?).map Interval.«end» =
      ((c :: rest)[k]?).map (fun x => x.created_dt - 1) := by
  cases k with
  | zero =>
    simp [bi_get_zero]
  | succ k =>
    have hklt : k < rest.length := by omega
    obtain ⟨rk, hrk⟩ : ∃ x, rest[k]? = some x :=
      ⟨_, List.getElem?_eq_getElem hklt⟩
    obtain ⟨ck, hck⟩ : ∃ x, (c :: rest)[k]? = some x :=
      ⟨_, List.getElem?_eq_getElem (show k < (c :: rest).length by simp only [List.length_cons]; omega)⟩
    have hz : ((c :: rest).zip rest)[k]? = some (ck, rk) :=
      List.getElem?_zip_eq_some.mpr ⟨hck, hrk⟩
    simp only [buildIntervals, List.cons_append, List.getElem?_cons_succ]
    rw [List.getElem?_append,
      if_pos (by simp only [List.length_map, List.length_zip, List.length_cons]; omega),
      List.getElem?_map, hz, hrk]
    rfl

/-- The last interval's end is the end-of-time sentinel. -/
theorem bi_end_last (f : IssueFields) (c : Change) (rest : List Change) :
    ((buildIntervals f (c :: rest))[rest.length + 1]?).map Interval.«end» = some DTMAX := by
  simp only [buildIntervals, List.cons_append, List.getElem?_cons_succ]
  rw [List.getElem?_append,
    if_neg (by simp only [List.length_map, List.length_zip, List.length_cons]; omega)]
  have hidx : rest.length -
      (List.map
        (fun p => ({ start := p.1.created_dt, «end» := p.2.created_dt - 1,
                     id := p.1.to_id, name := p.1.to_name } : Interval))
        ((c :: rest).zip rest)).length = 0 := by
    simp only [List.length_map, List.length_zip, List.length_cons]; omega
  rw [hidx, List.getElem?_cons_zero]
  rfl

/-- C2: for a non-empty sorted change sequence of length `n` the
reconstructor produces exactly `n + 1` intervals: one from beginning-of-time
to the first change minus ε holding the first change's `from` identity, one
per consecutive change pair `(i, i+1)` from change `i` to change `i+1` minus
ε holding change `i`'s `to` identity, and one from the last change to
end-of-time holding the last change's `to` identity (ε is one microsecond,
the minimal unit of the code's datetimes). -/
theorem timeline_interval_structure (f : IssueFields) (c : Change) (rest : List Change) :
    (buildIntervals f (c :: rest)).length = (c :: rest).length + 1 ∧
    (buildIntervals f (c :: rest))[0]? =
      some { start := DTMIN, «end» := c.created_dt - 1,
             id := c.from_id, name := c.from_name } ∧
    (∀ i ci ci1, (c :: rest)[i]? = some ci → (c :: rest)[i+1]? = some ci1 →
      (buildIntervals f (c :: rest))[i+1]? =
        some { start := ci.created_dt, «end» := ci1.created_dt - 1,
               id := ci.to_id, name := ci.to_name }) ∧
    (buildIntervals f (c :: rest)).getLast? =
      some { start := ((c :: rest).getLast (List.cons_ne_nil c rest)).created_dt,
             «end» := DTMAX,
             id := ((c :: rest).getLast (List.cons_ne_nil c rest)).to_id,
             name := ((c :: rest).getLast (List.cons_ne_nil c rest)).to_name } := by
  refine ⟨?_, bi_get_zero f c rest, bi_get_middle f c rest, ?_⟩
  · rw [bi_length]
    simp
  · simp only [buildIntervals, List.getLast?_concat]
/-- C1: for a sorted non-empty change sequence the reconstructed interval
sequence partitions all time: the first interval starts at the
beginning-of-time sentinel, the last ends at the end-of-time sentinel, each
interval's end immediately precedes (by one microsecond, the minimal unit)
the next interval's start, distinct intervals never overlap, and every
instant is covered by some interval. -/
theorem timeline_partition_sorted (f : IssueFields) (c : Change) (rest : List Change)
    (hsorted : List.Pairwise (fun a b => a.created_dt ≤ b.created_dt) (c :: rest)) :
    ((buildIntervals f (c :: rest))[0]?).map Interval.start = some DTMIN ∧
    ((buildIntervals f (c :: rest)).getLast?).map Interval.«end» = some DTMAX ∧
    (∀ (i : Nat) (iv1 iv2 : Interval), (buildIntervals f (c :: rest))[i]? = some iv1 →
        (buildIntervals f (c :: rest))[i+1]? = some iv2 →
        iv1.«end» + 1 = iv2.start) ∧
    (∀ (i j : Nat) (iv1 iv2 : Interval) (t : Int), i < j →
        (buildIntervals f (c :: rest))[i]? = some iv1 →
        (buildIntervals f (c :: rest))[j]? = some iv2 →
        ¬(iv1.start ≤ t ∧ t ≤ iv1.«end» ∧ iv2.start ≤ t ∧ t ≤ iv2.«end»)) ∧
    (∀ t : Int, DTMIN ≤ t → t ≤ DTMAX →
        ∃ (i : Nat) (iv : Interval), (buildIntervals f (c :: rest))[i]? = some iv ∧
          iv.start ≤ t ∧ t ≤ iv.«end») := by
  have hlen := bi_length f c rest
  have hcontig : ∀ (i : Nat) (iv1 iv2 : Interval),
      (buildIntervals f (c :: rest))[i]? = some iv1 →
      (buildIntervals f (c :: rest))[i+1]? = some iv2 → iv1.«end» + 1 = iv2.start := by
    intro i iv1 iv2 h1 h2
    have hi2 : i + 1 < rest.length + 2 := by
      have h := (List.getElem?_eq_some.mp h2).1
      rw [hlen] at h; exact h
    have hile : i ≤ rest.length := by omega
    obtain ⟨ci, hci⟩ : ∃ x, (c :: rest)[i]? = some x :=
      ⟨_, List.getElem?_eq_getElem (show i < (c :: rest).length by simp only [List.length_cons]; omega)⟩
    have hend := bi_end_le f c rest i hile
    rw [h1, hci] at hend
    have hend2 : iv1.«end» = ci.created_dt - 1 := by simpa using hend
    have hstart := bi_start_succ f c rest i hile
    rw [h2, hci] at hstart
    have hstart2 : iv2.start = ci.created_dt := by simpa using hstart
    omega
  have hdisj : ∀ (i j : Nat) (iv1 iv2 : Interval) (t : Int), i < j →
      (buildIntervals f (c :: rest))[i]? = some iv1 →
      (buildIntervals f (c :: rest))[j]? = some iv2 →
      ¬(iv1.start ≤ t ∧ t ≤ iv1.«end» ∧ iv2.start ≤ t ∧ t ≤ iv2.«end») := by
    intro i j iv1 iv2 t hij h1 h2 hc
    obtain ⟨ht1, ht2, ht3, ht4⟩ := hc
    have hj2 : j < rest.length + 2 := by
      have h := (List.getElem?_eq_some.mp h2).1
      rw [hlen] at h; exact h
    have hile : i ≤ rest.length := by omega
    obtain ⟨ci, hci⟩ : ∃ x, (c :: rest)[i]? = some x :=
      ⟨_, List.getElem?_eq_getElem (show i < (c :: rest).length by simp only [List.length_cons]; omega)⟩
    have hend := bi_end_le f c rest i hile
    rw [h1, hci] at hend
    have hend2 : iv1.«end» = ci.created_dt - 1 := by simpa using hend
    cases j with
    | zero => omega
    | succ k =>
      have hkle : k ≤ rest.length := by omega
      obtain ⟨ck, hck⟩ : ∃ x, (c :: rest)[k]? = some x :=
        ⟨_, List.getElem?_eq_getElem (show k < (c :: rest).length by simp only [List.length_cons]; omega)⟩
      have hstart := bi_start_succ f c rest k hkle
      rw [h2, hck] at hstart
      have hstart2 : iv2.start = ck.created_dt := by simpa using hstart
      have hmono : ci.created_dt ≤ ck.created_dt := by
        rcases Nat.lt_or_ge i k with hlt | hge
        · obtain ⟨hbi, ei⟩ := List.getElem?_eq_some.mp hci
          obtain ⟨hbk, ek⟩ := List.getElem?_eq_some.mp hck
          have hp := List.pairwise_iff_getElem.mp hsorted i k hbi hbk hlt
          rw [ei, ek] at hp
          exact hp
        · have hik : i = k := by omega
          subst hik
          have : ci = ck := Option.some.inj (hci.symm.trans hck)
          subst this
          exact le_refl _
      omega
  have hcover : ∀ t : Int, DTMIN ≤ t → t ≤ DTMAX →
      ∃ (i : Nat) (iv : Interval), (buildIntervals f (c :: rest))[i]? = some iv ∧
        iv.start ≤ t ∧ t ≤ iv.«end» := by
    intro t ht0 ht1
    classical
    set P : Nat → Prop := fun k =>
      ∃ iv, (buildIntervals f (c :: rest))[k]? = some iv ∧ iv.start ≤ t with hPdef
    haveI : DecidablePred P := fun _ => Classical.propDecidable _
    have hP0 : P 0 := ⟨_, bi_get_zero f c rest, ht0⟩
    have hfgle : Nat.findGreatest P (rest.length + 1) ≤ rest.length + 1 :=
      Nat.findGreatest_le _
    have hPfg : P (Nat.findGreatest P (rest.length + 1)) :=
      Nat.findGreatest_spec (Nat.zero_le _) hP0
    obtain ⟨iv, hiv, hivstart⟩ := hPfg
    by_cases hlast : Nat.findGreatest P (rest.length + 1) = rest.length + 1
    · have hend := bi_end_last f c rest
      rw [← hlast, hiv] at hend
      have hmax : iv.«end» = DTMAX := by simpa using hend
      exact ⟨_, iv, hiv, hivstart, by omega⟩
    · have hlt : Nat.findGreatest P (rest.length + 1) < rest.length + 1 :=
        lt_of_le_of_ne hfgle hlast
      have hnot : ¬ P (Nat.findGreatest P (rest.length + 1) + 1) :=
        Nat.findGreatest_is_greatest (Nat.lt_succ_self _) (by omega)
      have hbound : Nat.findGreatest P (rest.length + 1) + 1 <
          (buildIntervals f (c :: rest)).length := by
        rw [hlen]; omega
      obtain ⟨iv2, hiv2⟩ : ∃ x,
          (buildIntervals f (c :: rest))[Nat.findGreatest P (rest.length + 1) + 1]? = some x :=
        ⟨_, List.getElem?_eq_getElem hbound⟩
      have hs2 : ¬ iv2.start ≤ t := fun hcon => hnot ⟨iv2, hiv2, hcon⟩
      have hcont := hcontig _ iv iv2 hiv hiv2
      exact ⟨_, iv, hiv, hivstart, by omega⟩
  refine ⟨?_, ?_, hcontig, hdisj, hcover⟩
  · simp [bi_get_zero]
  · simp only [buildIntervals, List.getLast?_concat, Option.map_some']

/-- C1 witness: the partition property holds at a concrete sorted
two-change history; its first interval starts at the sentinel. -/
theorem timeline_partition_sorted_witness :
    ((buildIntervals { assignee := none }
        ({ created_dt := 100, from_id := some "a", from_name := some "A",
           to_id := some "b", to_name := some "B" } ::
         [{ created_dt := 200, from_id := some "b", from_name := some "B",
            to_id := some "c", to_name := some "C" }]))[0]?).map Interval.start =
      some DTMIN :=
  (timeline_partition_sorted { assignee := none }
    { created_dt := 100, from_id := some "a", from_name := some "A",
      to_id := some "b", to_name := some "B" }
    [{ created_dt := 200, from_id := some "b", from_name := some "B",
       to_id := some "c", to_name := some "C" }] (by decide)).1

end JiraWorkedOn
